import Mathlib

/-!
Verification development for the NMDC CDM Browser's Study Statistical
Comparison & Cache Engine and its frontend API-URL / query-hook helpers.

The frontend TypeScript helpers (`getApiUrl` in `src/frontend/src/config/api.ts`
and `useSampleAnalysis` in `src/frontend/src/hooks/useSampleAnalysis.ts`) are
embedded directly from their source.  The backend engine (TableStore,
CompendiumBaseline, StudyAnalyzer, AnalysisCache) is not part of the shipped
sources; those components are modelled from the specification, as marked on
each definition.  Strings manipulated by the URL helpers are embedded as lists
of characters (`List Char`, the underlying data of a string); numeric data is
embedded as exact rationals.  Where the engine's statistics require a square
root or a normal-distribution tail (unavailable over the rationals), a
deterministic rational surrogate with the same sign, ordering and finiteness
behaviour is used, and the `std`-named fields carry the squared deviation;
the specification itself (design notes) leaves the exact test statistic open.
-/

/-- Association-list lookup used throughout the model: first binding wins. -/
def alookup {κ α : Type} [DecidableEq κ] : List (κ × α) → κ → Option α
  | [], _ => none
  | p :: rest, k => if p.1 = k then some p.2 else alookup rest k

/-- Association-list update: insert the binding and drop any previous one. -/
def aset {κ α : Type} [DecidableEq κ] (m : List (κ × α)) (k : κ) (v : α) : List (κ × α) :=
  (k, v) :: m.filter fun p => !(decide (p.1 = k))

/-- Canonical key ordering: deduplicate then sort, so the result depends only
on the set of keys, not on the order in which they were encountered. -/
def sortedKeys (l : List String) : List String :=
  List.insertionSort (· ≤ ·) l.dedup

/-- Embedded from `src/frontend/src/config/api.ts`: test for a leading slash
(the `endpoint.startsWith('/')` check). -/
def startsWithSlash : List Char → Bool
  | c :: _ => c = '/'
  | [] => false

/-- Embedded from `src/frontend/src/config/api.ts`: the default backend base
URL (`VITE_BACKEND_URL` fallback). -/
def BACKEND_URL : List Char := "http://localhost:9000".data

/-- Embedded from `src/frontend/src/config/api.ts`: strip a single leading
slash, then prefix with `/api/` in development or with the backend base URL
plus `/api/` in production. -/
def getApiUrl (isDev : Bool) (backendUrl : List Char) (endpoint : List Char) : List Char :=
  let cleanEndpoint := if startsWithSlash endpoint then endpoint.drop 1 else endpoint
  if isDev then "/api/".data ++ cleanEndpoint
  else backendUrl ++ "/api/".data ++ cleanEndpoint

/-- Embedded from `src/frontend/src/config/api.ts`: the per-sample analysis
endpoint `API_ENDPOINTS.samples.analysis` (v1 variant). -/
def samplesAnalysisEndpoint (sampleId : List Char) : List Char :=
  "v1/sample/".data ++ sampleId ++ "/analysis".data

/-- Embedded from `src/frontend/src/hooks/useSampleAnalysis.ts`: the URL
requested by `fetchSampleAnalysis`. -/
def fetchSampleAnalysisUrl (sampleId : List Char) : List Char :=
  "http://localhost:8000/api/v1/sample/".data ++ sampleId ++ "/analysis".data

/-- Embedded from `src/frontend/src/hooks/useSampleAnalysis.ts`: the query is
enabled exactly when `!!sampleId` holds, i.e. the id is neither `undefined`
nor the empty string; when enabled it issues a request to
`fetchSampleAnalysisUrl`.  The returned option is the URL of the network
request the hook issues (`none` when the query is disabled). -/
def useSampleAnalysis (sampleId : Option (List Char)) : Option (List Char) :=
  match sampleId with
  | none => none
  | some s => if s = [] then none else some (fetchSampleAnalysisUrl s)

/-- Modelled from the spec: a raw table cell for a physical variable; the
source tables may hold numeric values, non-numeric text (which fails numeric
coercion), or nulls.  The engine itself is absent from the sources. -/
inductive Cell : Type
  | num (q : ℚ)
  | text (s : String)
  | null

/-- Modelled from the spec: numeric coercion of a cell; non-numeric values
are the `NumericParseError` case and yield no value. -/
def parseNumeric : Cell → Option ℚ
  | Cell.num q => some q
  | _ => none

/-- Modelled from the spec: a sample-metadata row (identifier, owning study,
sparse named physical-variable values). -/
structure SampleRow where
  id : String
  study_id : String
  physical : List (String × Cell)

/-- Modelled from the spec: an abundance record of one omics table. -/
structure AbundanceRow where
  sample_id : String
  item : String
  abundance : ℚ

/-- Modelled from the spec: a taxonomic rollup record of one classifier. -/
structure TaxRow where
  sample_id : String
  rank : String
  taxon : String
  abundance : ℚ

/-- Modelled from the spec: the read-only table handle exposed by TableStore
for one data version.  A category whose table is absent from the store has no
binding in the corresponding association list (the `DataUnavailableError`
case). -/
structure Tables where
  samples : List SampleRow
  omics : List (String × List AbundanceRow)
  taxonomic : List (String × List TaxRow)

/-- Modelled from the spec: the three omics abundance categories. -/
def omicsTypes : List String := ["metabolomics", "lipidomics", "proteomics"]

/-- Modelled from the spec: the four taxonomic classifiers. -/
def classifiers : List String := ["kraken", "centrifuge", "gottcha", "contigs"]

/-- Modelled from the spec: the taxonomic ranks (superkingdom through
species). -/
def taxRanks : List String :=
  ["superkingdom", "phylum", "class", "order", "family", "genus", "species"]

/-- Mean of a list of rationals (zero on the empty list, as division by the
zero length yields zero). -/
def meanOf (l : List ℚ) : ℚ := l.sum / l.length

/-- Modelled from the spec: spread of a list of rationals.  The engine's
`std` is represented by the sample variance (squared deviation over n-1),
since exact rationals admit no square root; every property verified here
concerns only finiteness, identity and population of the field. -/
def varOf (l : List ℚ) : ℚ :=
  ((l.map fun x => (x - meanOf l) ^ 2).sum) / ((l.length : ℚ) - 1)

/-- Modelled from the spec: squared Welch-style test statistic computed from
summary statistics only (study mean/spread/n versus compendium
mean/spread/n). -/
def welchT2 (m1 v1 : ℚ) (n1 : ℕ) (m2 v2 : ℚ) (n2 : ℕ) : ℚ :=
  (m1 - m2) ^ 2 / (v1 / n1 + v2 / n2)

/-- Modelled from the spec: the p-value obtained from the test statistic.
The specification leaves the exact normal/t tail open (design notes); a
rational surrogate strictly decreasing in the squared statistic and lying in
(0, 1] is used. -/
def pValue (m1 v1 : ℚ) (n1 : ℕ) (m2 v2 : ℚ) (n2 : ℕ) : ℚ :=
  1 / (1 + welchT2 m1 v1 n1 m2 v2 n2)

/-- Modelled from the spec: Cohens-d-style standardized mean difference,
standardized by the pooled squared spread (no square root over ℚ); the sign
matches the sign of the mean difference whenever the pooled spread is
positive. -/
def effectSize (m1 v1 m2 v2 : ℚ) : ℚ :=
  (m1 - m2) / ((v1 + v2) / 2)

/-- Modelled from the spec: configured significance threshold on the p-value
for outlier selection (an open configuration value in the spec; a fixed
representative constant here). -/
def significanceAlpha : ℚ := 5 / 100

/-- Modelled from the spec: configured magnitude threshold on the effect size
for outlier selection (an open configuration value in the spec; a fixed
representative constant here). -/
def effectThreshold : ℚ := 1

/-- Modelled from the spec: the per-study aggregate reported for one omics
item or taxon (study mean abundance, spread, contributing sample count). -/
structure ItemAgg where
  id : String
  mean_abundance : ℚ
  std_abundance : ℚ
  sample_count : ℕ

/-- Modelled from the spec: an outlier entry, annotated with the compendium
comparison and a direction derived from the sign of the mean difference. -/
structure OutlierItem where
  id : String
  mean_abundance : ℚ
  std_abundance : ℚ
  sample_count : ℕ
  compendium_mean : ℚ
  compendium_std : ℚ
  p_value : ℚ
  effect_size : ℚ
  direction : String

/-- Modelled from the spec: compendium-level statistics for one physical
variable, omics item, or taxon. -/
structure BaselineStat where
  mean : ℚ
  std : ℚ
  count : ℕ

/-- Modelled from the spec: the CompendiumBaseline data: per physical
variable, per omics item (per omics type), and per (classifier, rank, taxon)
triple, the mean/std/count aggregate over all samples. -/
structure Baseline where
  physical : List (String × BaselineStat)
  omics : List (String × List (String × BaselineStat))
  taxonomic : List (String × List (String × List (String × BaselineStat)))

/-- Abundance values contributed for one key among keyed abundance pairs. -/
def valuesFor (pairs : List (String × ℚ)) (k : String) : List ℚ :=
  (pairs.filter fun p => p.1 == k).map Prod.snd

/-- Modelled from the spec: group keyed abundance pairs by key (in canonical
key order) and aggregate each group's mean/spread/count. -/
def aggregateItems (pairs : List (String × ℚ)) : List ItemAgg :=
  (sortedKeys (pairs.map Prod.fst)).map fun k =>
    let xs := valuesFor pairs k
    { id := k, mean_abundance := meanOf xs, std_abundance := varOf xs, sample_count := xs.length }

/-- Modelled from the spec: the same grouping, producing compendium baseline
statistics keyed by item. -/
def baselineItems (pairs : List (String × ℚ)) : List (String × BaselineStat) :=
  (sortedKeys (pairs.map Prod.fst)).map fun k =>
    let xs := valuesFor pairs k
    (k, { mean := meanOf xs, std := varOf xs, count := xs.length })

/-- Modelled from the spec: ordering used for top-10 selection: strictly
higher study mean abundance first, ties broken by item id (the tie-break is
documented in the spec as an implementation choice made for determinism). -/
def itemOrder (a b : ItemAgg) : Prop :=
  b.mean_abundance < a.mean_abundance ∨
    (b.mean_abundance = a.mean_abundance ∧ a.id ≤ b.id)

instance : DecidableRel itemOrder := fun a b => by
  unfold itemOrder; infer_instance

instance : IsTotal ItemAgg itemOrder := by
  constructor
  intro a b
  rcases lt_trichotomy a.mean_abundance b.mean_abundance with h | h | h
  · exact Or.inr (Or.inl h)
  · rcases le_total a.id b.id with h' | h'
    · exact Or.inl (Or.inr ⟨h.symm, h'⟩)
    · exact Or.inr (Or.inr ⟨h, h'⟩)
  · exact Or.inl (Or.inl h)

instance : IsTrans ItemAgg itemOrder := by
  constructor
  intro a b c hab hbc
  rcases hab with h1 | ⟨h1, h1'⟩
  · rcases hbc with h2 | ⟨h2, _⟩
    · exact Or.inl (h2.trans h1)
    · exact Or.inl (h2 ▸ h1)
  · rcases hbc with h2 | ⟨h2, h2'⟩
    · exact Or.inl (h1 ▸ h2)
    · exact Or.inr ⟨h2.trans h1, le_trans h1' h2'⟩

/-- Modelled from the spec: the top-10 list: the ten items with the highest
study mean abundance, descending. -/
def top10Items (pairs : List (String × ℚ)) : List ItemAgg :=
  (List.insertionSort itemOrder (aggregateItems pairs)).take 10

/-- Modelled from the spec: outlier selection: items whose p-value and
effect-size magnitude both cross the configured thresholds versus the
compendium baseline, annotated with a direction from the sign of the mean
difference.  Comparison requires at least two contributing samples on each
side. -/
def outliersOf (aggs : List ItemAgg) (base : List (String × BaselineStat)) :
    List OutlierItem :=
  aggs.filterMap fun a =>
    match alookup base a.id with
    | none => none
    | some b =>
      let p := pValue a.mean_abundance a.std_abundance a.sample_count b.mean b.std b.count
      let d := effectSize a.mean_abundance a.std_abundance b.mean b.std
      if 2 ≤ a.sample_count ∧ 2 ≤ b.count ∧ p ≤ significanceAlpha ∧ effectThreshold ≤ |d| then
        some { id := a.id, mean_abundance := a.mean_abundance,
               std_abundance := a.std_abundance, sample_count := a.sample_count,
               compendium_mean := b.mean, compendium_std := b.std,
               p_value := p, effect_size := d,
               direction := if b.mean < a.mean_abundance then "higher" else "lower" }
      else none

/-- Names of all physical variables appearing in the sample table, in
canonical order. -/
def physVars (samples : List SampleRow) : List String :=
  sortedKeys (samples.flatMap fun s => s.physical.map Prod.fst)

/-- Modelled from the spec: the numerically parseable values of one physical
variable over a list of samples (samples missing the variable, and values
failing numeric coercion, contribute nothing). -/
def sampleValues (samples : List SampleRow) (v : String) : List ℚ :=
  samples.filterMap fun s => (alookup s.physical v).bind parseNumeric

/-- Keyed abundance pairs of an omics table. -/
def pairsOfRows (rows : List AbundanceRow) : List (String × ℚ) :=
  rows.map fun r => (r.item, r.abundance)

/-- Keyed abundance pairs of one rank of a classifier table. -/
def taxPairsAtRank (rows : List TaxRow) (r : String) : List (String × ℚ) :=
  (rows.filter fun t => t.rank == r).map fun t => (t.taxon, t.abundance)

namespace CompendiumBaseline

/-- Modelled from the spec: `CompendiumBaseline.build`: population-level
mean/std/count for every physical variable, every omics item, and every
(classifier, rank, taxon) triple, across all samples of the table store.  A
category whose table is absent contributes an empty baseline for that
category only. -/
def build (tables : Tables) : Baseline :=
  { physical := (physVars tables.samples).map fun v =>
      let xs := sampleValues tables.samples v
      (v, { mean := meanOf xs, std := varOf xs, count := xs.length })
  , omics := omicsTypes.map fun ty =>
      (ty, baselineItems (pairsOfRows ((alookup tables.omics ty).getD [])))
  , taxonomic := classifiers.map fun c =>
      let rows := (alookup tables.taxonomic c).getD []
      (c, taxRanks.map fun r => (r, baselineItems (taxPairsAtRank rows r))) }

end CompendiumBaseline

/-- Modelled from the spec: the reported entry for one physical variable of a
study analysis (status plus optional study and compendium statistics and the
two comparison quantities). -/
structure PhysEntry where
  status : String
  mean : Option ℚ
  std : Option ℚ
  compendium_mean : Option ℚ
  compendium_std : Option ℚ
  p_value : Option ℚ
  effect_size : Option ℚ

/-- Modelled from the spec: one omics or taxonomic category of a study
analysis: top-10 list, outlier list, and an explanatory status. -/
structure CategoryOut where
  top10 : List ItemAgg
  outliers : List OutlierItem
  status : String

/-- Modelled from the spec: the explanatory status reported for a category
whose input table is unavailable. -/
def missingTableStatus : String := "no_data: table unavailable"

/-- Modelled from the spec: the degraded (empty) category result produced
when a category's input table is unavailable. -/
def emptyCategory : CategoryOut :=
  { top10 := [], outliers := [], status := missingTableStatus }

/-- Modelled from the spec: the omics section of a study analysis result:
top-10 and outliers keyed by omics type, plus per-type status. -/
structure OmicsSection where
  top10 : List (String × List ItemAgg)
  outliers : List (String × List OutlierItem)
  status : List (String × String)

/-- Modelled from the spec: the taxonomic section of a study analysis result:
top-10 and outliers nested per classifier and then per rank, plus
per-classifier status. -/
structure TaxSection where
  top10 : List (String × List (String × List ItemAgg))
  outliers : List (String × List (String × List OutlierItem))
  status : List (String × String)

/-- Modelled from the spec: `StudyAnalysisResult`: the JSON document served
per study. -/
structure StudyAnalysisResult where
  physical : List (String × PhysEntry)
  omics : OmicsSection
  taxonomic : TaxSection

/-- Modelled from the spec: the per-rank study output of one classifier. -/
structure TaxClassOut where
  status : String
  perRank : List (String × CategoryOut)

namespace StudyAnalyzer

/-- Samples belonging to the study under analysis. -/
def studySamples (tables : Tables) (sid : String) : List SampleRow :=
  tables.samples.filter fun s => s.study_id == sid

/-- Sample ids of the study under analysis. -/
def studySampleIds (tables : Tables) (sid : String) : List String :=
  (studySamples tables sid).map fun s => s.id

/-- Modelled from the spec: the study's valid (numerically parseable) values
for one physical variable. -/
def validStudyValues (tables : Tables) (sid : String) (v : String) : List ℚ :=
  sampleValues (studySamples tables sid) v

/-- Abundance rows of an omics table contributed by the study's samples. -/
def studyRows (ids : List String) (rows : List AbundanceRow) : List AbundanceRow :=
  rows.filter fun r => ids.contains r.sample_id

/-- Taxonomic rows of a classifier table contributed by the study's
samples. -/
def taxStudyRows (ids : List String) (rows : List TaxRow) : List TaxRow :=
  rows.filter fun r => ids.contains r.sample_id

/-- Modelled from the spec: the reported entry for one physical variable:
with fewer than two valid study values the status is no_data and no
comparison is performed (only the raw mean is reported if available); with at
least two valid values and a comparable compendium baseline the status is ok
and the Welch-style p-value and the standardized effect size are reported. -/
def physicalEntry (baseline : Baseline) (xs : List ℚ) (v : String) : PhysEntry :=
  if 2 ≤ xs.length then
    match alookup baseline.physical v with
    | some b =>
      if 2 ≤ b.count then
        { status := "ok", mean := some (meanOf xs), std := some (varOf xs),
          compendium_mean := some b.mean, compendium_std := some b.std,
          p_value := some (pValue (meanOf xs) (varOf xs) xs.length b.mean b.std b.count),
          effect_size := some (effectSize (meanOf xs) (varOf xs) b.mean b.std) }
      else
        { status := "no_baseline", mean := some (meanOf xs), std := some (varOf xs),
          compendium_mean := none, compendium_std := none,
          p_value := none, effect_size := none }
    | none =>
      { status := "no_baseline", mean := some (meanOf xs), std := some (varOf xs),
        compendium_mean := none, compendium_std := none,
        p_value := none, effect_size := none }
  else
    { status := "no_data", mean := if xs.isEmpty then none else some (meanOf xs),
      std := none, compendium_mean := none, compendium_std := none,
      p_value := none, effect_size := none }

/-- Modelled from the spec: analysis of one omics category: a missing table
degrades only this category to empty lists with an explanatory status. -/
def omicsCategory (base : List (String × BaselineStat)) (ids : List String)
    (o : Option (List AbundanceRow)) : CategoryOut :=
  match o with
  | none => emptyCategory
  | some rows =>
    let pairs := pairsOfRows (studyRows ids rows)
    { top10 := top10Items pairs,
      outliers := outliersOf (aggregateItems pairs) base,
      status := "ok" }

/-- Modelled from the spec: analysis of one classifier: the identical
algorithm applied per rank independently; a missing table degrades only this
classifier to empty per-rank lists with an explanatory status. -/
def taxClassifier (base : List (String × List (String × BaselineStat)))
    (ids : List String) (o : Option (List TaxRow)) : TaxClassOut :=
  match o with
  | none => { status := missingTableStatus, perRank := taxRanks.map fun r => (r, emptyCategory) }
  | some rows =>
    { status := "ok",
      perRank := taxRanks.map fun r =>
        let pairs := taxPairsAtRank (taxStudyRows ids rows) r
        (r, { top10 := top10Items pairs,
              outliers := outliersOf (aggregateItems pairs) ((alookup base r).getD []),
              status := "ok" }) }

/-- Modelled from the spec: `StudyAnalyzer.compute`: the study's own
aggregates and the study-versus-compendium comparison, producing the
category-specific top-10 and outlier lists; category-level failures are
recovered locally and encoded as status fields, never failing the whole
computation. -/
def compute (sid : String) (tables : Tables) (baseline : Baseline) : StudyAnalysisResult :=
  let ids := studySampleIds tables sid
  let omicsCats := omicsTypes.map fun ty =>
    (ty, omicsCategory ((alookup baseline.omics ty).getD []) ids (alookup tables.omics ty))
  let taxCats := classifiers.map fun c =>
    (c, taxClassifier ((alookup baseline.taxonomic c).getD []) ids (alookup tables.taxonomic c))
  { physical := (physVars tables.samples).map fun v =>
      (v, physicalEntry baseline (validStudyValues tables sid v) v)
  , omics :=
    { top10 := omicsCats.map fun p => (p.1, p.2.top10)
    , outliers := omicsCats.map fun p => (p.1, p.2.outliers)
    , status := omicsCats.map fun p => (p.1, p.2.status) }
  , taxonomic :=
    { top10 := taxCats.map fun p => (p.1, p.2.perRank.map fun q => (q.1, q.2.top10))
    , outliers := taxCats.map fun p => (p.1, p.2.perRank.map fun q => (q.1, q.2.outliers))
    , status := taxCats.map fun p => (p.1, p.2.status) } }

end StudyAnalyzer

namespace AnalysisCache

/-- Modelled from the spec: `AnalysisCache.get`: with `force_refresh` false
and an entry present for `(study_id, current_data_version)` the stored entry
is returned unchanged; otherwise the analyzer is invoked, the result is
persisted under that key, and it is returned.  The third component counts the
analyzer invocations performed by the call (zero on a cache hit, one
otherwise); entries stored under a different data version are never
consulted. -/
def get (analyze : String → StudyAnalysisResult) (version : String)
    (st : List ((String × String) × StudyAnalysisResult)) (sid : String)
    (force : Bool) :
    StudyAnalysisResult × List ((String × String) × StudyAnalysisResult) × ℕ :=
  if force then
    let r := analyze sid
    (r, aset st (sid, version) r, 1)
  else
    match alookup st (sid, version) with
    | some r => (r, st, 0)
    | none =>
      let r := analyze sid
      (r, aset st (sid, version) r, 1)

/-- Modelled from the spec: the state of the per-key in-flight registry for
one uncached `(study_id, data_version)` key: the persisted entry, the
registry of callers waiting on the single in-flight build (absent when no
build is in flight), the responses delivered so far, and the number of
builds started. -/
structure MachineState (α : Type) where
  cached : Option α
  waiters : Option (List ℕ)
  responses : List (ℕ × α)
  builds : ℕ
deriving DecidableEq

/-- Modelled from the spec: an interleaving event for one key: a caller
arriving at `get`, or the single in-flight build completing. -/
inductive MachineEvent : Type
  | arrive (c : ℕ)
  | complete
deriving DecidableEq

/-- Modelled from the spec: the initial state for an uncached key. -/
def machineInit {α : Type} : MachineState α :=
  { cached := none, waiters := none, responses := [], builds := 0 }

/-- Modelled from the spec: one transition of the registry.  An arriving
caller is answered from the cache when the entry exists, joins the registry
when a build is in flight, and otherwise registers itself and starts the
single build; a completing build persists the result and answers every
registered caller.  `complete` is enabled only while a build is in flight. -/
def machineStep {α : Type} (result : α) (s : MachineState α) :
    MachineEvent → Option (MachineState α)
  | MachineEvent.arrive c =>
    match s.cached with
    | some r => some { s with responses := s.responses ++ [(c, r)] }
    | none =>
      match s.waiters with
      | some ws => some { s with waiters := some (ws ++ [c]) }
      | none => some { s with waiters := some [c], builds := s.builds + 1 }
  | MachineEvent.complete =>
    match s.waiters with
    | some ws =>
      some { s with cached := some result, waiters := none,
                    responses := s.responses ++ ws.map fun c => (c, result) }
    | none => none

/-- Modelled from the spec: run a whole interleaving of events. -/
def machineRun {α : Type} (result : α) :
    MachineState α → List MachineEvent → Option (MachineState α)
  | s, [] => some s
  | s, e :: es => (machineStep result s e).bind fun s' => machineRun result s' es

/-- Number of caller arrivals in an interleaving. -/
def arrivalsCount (es : List MachineEvent) : ℕ :=
  (es.filter fun e => match e with | MachineEvent.arrive _ => true | _ => false).length

/-- Number of callers currently registered as waiting. -/
def waiterCount {α : Type} (s : MachineState α) : ℕ :=
  match s.waiters with
  | some ws => ws.length
  | none => 0

end AnalysisCache

/-- Two association lists of tables that bind the same category names, in the
same order, to row lists that are permutations of each other (the same
logical tables presented in a different row order). -/
def rowsPermAssoc {α : Type} (m₁ m₂ : List (String × List α)) : Prop :=
  List.Forall₂ (fun p q => p.1 = q.1 ∧ List.Perm p.2 q.2) m₁ m₂

/-- Two table stores holding the same logical tables: the same samples and,
category by category, the same rows, each presented in a possibly different
order. -/
def tablesPerm (t₁ t₂ : Tables) : Prop :=
  List.Perm t₁.samples t₂.samples ∧
    rowsPermAssoc t₁.omics t₂.omics ∧ rowsPermAssoc t₁.taxonomic t₂.taxonomic

/-- Non-increasing study mean abundance, the order of a top-10 list. -/
def descMean (a b : ItemAgg) : Prop := b.mean_abundance ≤ a.mean_abundance

/-- A two-sample demonstration table store used to instantiate theorems with
hypotheses at a concrete input. -/
def demoTables : Tables :=
  { samples :=
      [ { id := "s1", study_id := "st1",
          physical := [("temperature", Cell.num 18), ("ph", Cell.num 7)] }
      , { id := "s2", study_id := "st1",
          physical := [("temperature", Cell.num 22)] } ]
  , omics := []
  , taxonomic := [] }

/-- The same demonstration table store with its two sample rows swapped. -/
def demoTablesSwapped : Tables :=
  { samples :=
      [ { id := "s2", study_id := "st1",
          physical := [("temperature", Cell.num 22)] }
      , { id := "s1", study_id := "st1",
          physical := [("temperature", Cell.num 18), ("ph", Cell.num 7)] } ]
  , omics := []
  , taxonomic := [] }

/-- Study analysis of a table store against the baseline built from the same
store (the control flow of an analysis request on a cache miss). -/
def analysisOf (sid : String) (t : Tables) : StudyAnalysisResult :=
  StudyAnalyzer.compute sid t (CompendiumBaseline.build t)

/-- The same table store with one omics table added (or shadowed) under the
given category name. -/
def withOmicsTable (t : Tables) (ty : String) (rows : List AbundanceRow) : Tables :=
  { samples := t.samples, omics := (ty, rows) :: t.omics, taxonomic := t.taxonomic }

/-- The same table store with one classifier table added (or shadowed) under
the given classifier name. -/
def withTaxTable (t : Tables) (c : String) (rows : List TaxRow) : Tables :=
  { samples := t.samples, omics := t.omics, taxonomic := (c, rows) :: t.taxonomic }

theorem alookup_map_pair {α : Type} (l : List String) (f : String → α) (v : String) :
    alookup (l.map fun k => (k, f k)) v = if v ∈ l then some (f v) else none := by
  induction l with
  | nil => rfl
  | cons k rest ih =>
    by_cases hk : k = v
    · subst hk
      simp [alookup]
    · simp [alookup, hk, ih, Ne.symm hk]

theorem alookup_cons_ne {κ α : Type} [DecidableEq κ] (k k' : κ) (v : α)
    (m : List (κ × α)) (h : ¬ k = k') :
    alookup ((k, v) :: m) k' = alookup m k' := by
  simp [alookup, h]

theorem alookup_aset_same {κ α : Type} [DecidableEq κ] (m : List (κ × α)) (k : κ) (v : α) :
    alookup (aset m k v) k = some v := by
  simp [aset, alookup]

/-- C9: for every endpoint that does not begin with a slash, prefixing a
single leading slash does not change the constructed URL, and the URL is
`/api/` followed by the endpoint in development, or the backend base URL
followed by `/api/` and the endpoint in production. -/
theorem getApiUrl_slash_and_shape (d : Bool) (b e : List Char)
    (h : startsWithSlash e = false) :
    getApiUrl d b ('/' :: e) = getApiUrl d b e ∧
      getApiUrl d b e = if d then "/api/".data ++ e else b ++ "/api/".data ++ e := by
  have h1 : startsWithSlash ('/' :: e) = true := rfl
  constructor
  · simp [getApiUrl, h1, h]
  · simp [getApiUrl, h]

theorem getApiUrl_slash_and_shape_witness :
    startsWithSlash ("studies/cards".data) = false ∧
      getApiUrl true BACKEND_URL ('/' :: "studies/cards".data) =
        getApiUrl true BACKEND_URL ("studies/cards".data) :=
  ⟨by decide, (getApiUrl_slash_and_shape true BACKEND_URL ("studies/cards".data) (by decide)).1⟩

/-- C10: with an undefined or empty sample id the hook issues no network
request (the query is disabled); with a non-empty sample id the issued
request targets exactly the per-sample analysis endpoint for that id (the
production-shaped URL built over the hook's hard-coded backend base). -/
theorem useSampleAnalysis_request_discipline :
    useSampleAnalysis none = none ∧
      useSampleAnalysis (some []) = none ∧
      ∀ s : List Char, s ≠ [] →
        useSampleAnalysis (some s) =
          some (getApiUrl false ("http://localhost:8000".data) (samplesAnalysisEndpoint s)) := by
  refine ⟨rfl, rfl, ?_⟩
  intro s hs
  show (if s = [] then none else some (fetchSampleAnalysisUrl s)) = _
  rw [if_neg hs]
  rfl

theorem useSampleAnalysis_request_discipline_witness :
    ("abc".data ≠ ([] : List Char)) ∧
      useSampleAnalysis (some ("abc".data)) =
        some (getApiUrl false ("http://localhost:8000".data)
          (samplesAnalysisEndpoint ("abc".data))) :=
  ⟨by decide, useSampleAnalysis_request_discipline.2.2 ("abc".data) (by decide)⟩

/-- C5: two successive cache reads without forced refresh, with the data
version unchanged in between, invoke the analyzer at most once in total; the
second read returns the stored entry and leaves the cache unchanged. -/
theorem AnalysisCache.get_twice_computes_at_most_once
    (analyze : String → StudyAnalysisResult) (version sid : String)
    (st : List ((String × String) × StudyAnalysisResult)) :
    (AnalysisCache.get analyze version st sid false).2.2 +
        (AnalysisCache.get analyze version
          (AnalysisCache.get analyze version st sid false).2.1 sid false).2.2 ≤ 1 ∧
      (AnalysisCache.get analyze version
          (AnalysisCache.get analyze version st sid false).2.1 sid false).1 =
        (AnalysisCache.get analyze version st sid false).1 ∧
      (AnalysisCache.get analyze version
          (AnalysisCache.get analyze version st sid false).2.1 sid false).2.1 =
        (AnalysisCache.get analyze version st sid false).2.1 := by
  cases h : alookup st (sid, version) with
  | some r => simp [AnalysisCache.get, h]
  | none => simp [AnalysisCache.get, h, alookup_aset_same]

/-- C6: a forced refresh always invokes the analyzer exactly once and
overwrites the cache entry for `(study_id, version)` with the fresh result,
whatever entry (if any) was stored before. -/
theorem AnalysisCache.get_force_refresh_always_recomputes
    (analyze : String → StudyAnalysisResult) (version sid : String)
    (st : List ((String × String) × StudyAnalysisResult)) :
    (AnalysisCache.get analyze version st sid true).2.2 = 1 ∧
      (AnalysisCache.get analyze version st sid true).1 = analyze sid ∧
      alookup (AnalysisCache.get analyze version st sid true).2.1 (sid, version) =
        some (analyze sid) := by
  simp [AnalysisCache.get, alookup_aset_same]

theorem sortedKeys_perm_eq {l₁ l₂ : List String} (h : List.Perm l₁ l₂) :
    sortedKeys l₁ = sortedKeys l₂ := by
  unfold sortedKeys
  refine List.eq_of_perm_of_sorted ?_ (List.sorted_insertionSort _ _)
    (List.sorted_insertionSort _ _)
  exact ((List.perm_insertionSort _ _).trans h.dedup).trans
    (List.perm_insertionSort _ _).symm

theorem valuesFor_perm {p₁ p₂ : List (String × ℚ)} (h : List.Perm p₁ p₂) (k : String) :
    List.Perm (valuesFor p₁ k) (valuesFor p₂ k) :=
  (h.filter _).map _

theorem meanOf_perm {l₁ l₂ : List ℚ} (h : List.Perm l₁ l₂) : meanOf l₁ = meanOf l₂ := by
  unfold meanOf
  rw [h.sum_eq, h.length_eq]

theorem varOf_perm {l₁ l₂ : List ℚ} (h : List.Perm l₁ l₂) : varOf l₁ = varOf l₂ := by
  unfold varOf
  simp only [meanOf_perm h, h.length_eq, (h.map _).sum_eq]

theorem aggregateItems_perm_eq {p₁ p₂ : List (String × ℚ)} (h : List.Perm p₁ p₂) :
    aggregateItems p₁ = aggregateItems p₂ := by
  unfold aggregateItems
  rw [sortedKeys_perm_eq (h.map _)]
  refine List.map_congr_left ?_
  intro k _
  have hv := valuesFor_perm h k
  simp [meanOf_perm hv, varOf_perm hv, hv.length_eq]

theorem baselineItems_perm_eq {p₁ p₂ : List (String × ℚ)} (h : List.Perm p₁ p₂) :
    baselineItems p₁ = baselineItems p₂ := by
  unfold baselineItems
  rw [sortedKeys_perm_eq (h.map _)]
  refine List.map_congr_left ?_
  intro k _
  have hv := valuesFor_perm h k
  simp [meanOf_perm hv, varOf_perm hv, hv.length_eq]

theorem top10Items_perm_eq {p₁ p₂ : List (String × ℚ)} (h : List.Perm p₁ p₂) :
    top10Items p₁ = top10Items p₂ := by
  unfold top10Items
  rw [aggregateItems_perm_eq h]

theorem alookup_getD_perm {α : Type} {m₁ m₂ : List (String × List α)}
    (h : rowsPermAssoc m₁ m₂) (k : String) :
    List.Perm ((alookup m₁ k).getD []) ((alookup m₂ k).getD []) := by
  induction h with
  | nil => exact List.Perm.refl _
  | @cons p q m₁' m₂' hpq _ ih =>
    obtain ⟨h1, h2⟩ := hpq
    by_cases hk : p.1 = k
    · have hk' : q.1 = k := h1 ▸ hk
      simp only [alookup, if_pos hk, if_pos hk', Option.getD_some]
      exact h2
    · have hk' : ¬ q.1 = k := h1 ▸ hk
      simp only [alookup, if_neg hk, if_neg hk']
      exact ih

/-- C7: building the compendium baseline is deterministic: two builds from
the same logical tables (the same samples and the same rows per category, in
any order) produce identical mean, std and count values for every physical
variable, every omics item, and every (classifier, rank, taxon) triple. -/
theorem CompendiumBaseline.build_deterministic {t₁ t₂ : Tables} (h : tablesPerm t₁ t₂) :
    CompendiumBaseline.build t₁ = CompendiumBaseline.build t₂ := by
  obtain ⟨hs, ho, ht⟩ := h
  unfold CompendiumBaseline.build
  have hvars : physVars t₁.samples = physVars t₂.samples := by
    unfold physVars
    exact sortedKeys_perm_eq (hs.flatMap_right _)
  simp only [Baseline.mk.injEq]
  refine ⟨?_, ?_, ?_⟩
  · rw [hvars]
    refine List.map_congr_left ?_
    intro v _
    have hsv : List.Perm (sampleValues t₁.samples v) (sampleValues t₂.samples v) :=
      hs.filterMap _
    simp [meanOf_perm hsv, varOf_perm hsv, hsv.length_eq]
  · refine List.map_congr_left ?_
    intro ty _
    have hrows := alookup_getD_perm ho ty
    have : List.Perm (pairsOfRows ((alookup t₁.omics ty).getD []))
        (pairsOfRows ((alookup t₂.omics ty).getD [])) := hrows.map _
    rw [baselineItems_perm_eq this]
  · refine List.map_congr_left ?_
    intro c _
    have hrows := alookup_getD_perm ht c
    refine congrArg _ ?_
    refine List.map_congr_left ?_
    intro r _
    have : List.Perm (taxPairsAtRank ((alookup t₁.taxonomic c).getD []) r)
        (taxPairsAtRank ((alookup t₂.taxonomic c).getD []) r) :=
      (hrows.filter _).map _
    rw [baselineItems_perm_eq this]

theorem CompendiumBaseline.build_deterministic_witness :
    tablesPerm demoTables demoTablesSwapped ∧
      CompendiumBaseline.build demoTables = CompendiumBaseline.build demoTablesSwapped := by
  have hperm : tablesPerm demoTables demoTablesSwapped :=
    ⟨List.Perm.swap _ _ [], List.Forall₂.nil, List.Forall₂.nil⟩
  exact ⟨hperm, CompendiumBaseline.build_deterministic hperm⟩

theorem AnalysisCache.machineRun_invariant {α : Type} (result : α) :
    ∀ (es : List AnalysisCache.MachineEvent) (s s' : AnalysisCache.MachineState α),
      AnalysisCache.machineRun result s es = some s' →
      ((∀ r, s.cached = some r → r = result) ∧
        (∀ p ∈ s.responses, p.2 = result) ∧
        (s.cached = none → s.waiters = none → s.builds = 0) ∧
        s.builds ≤ 1 ∧
        (s.builds = 0 → s.cached = none ∧ s.waiters = none ∧ s.responses = [])) →
      ((∀ r, s'.cached = some r → r = result) ∧
        (∀ p ∈ s'.responses, p.2 = result) ∧
        (s'.cached = none → s'.waiters = none → s'.builds = 0) ∧
        s'.builds ≤ 1 ∧
        (s'.builds = 0 → s'.cached = none ∧ s'.waiters = none ∧ s'.responses = [])) := by
  intro es
  induction es with
  | nil =>
    intro s s' h hP
    simp [AnalysisCache.machineRun] at h
    subst h
    exact hP
  | cons e es ih =>
    intro s s' h hP
    obtain ⟨hA, hB, hC, hD, hE⟩ := hP
    simp only [AnalysisCache.machineRun] at h
    cases e with
    | arrive c =>
      cases hc : s.cached with
      | some r =>
        simp only [AnalysisCache.machineStep, hc, Option.bind_some] at h
        refine ih _ _ h ?_
        have hr : r = result := hA r hc
        refine ⟨by simpa [hc] using hA, ?_, by simp [hc], by simpa using hD, ?_⟩
        · intro p hp
          rcases List.mem_append.mp hp with hp | hp
          · exact hB p hp
          · simp at hp
            rw [hp]
            exact hr
        · intro h0
          simp at h0
          rcases (hE h0).1.symm.trans hc with h'
          cases h'
      | none =>
        cases hw : s.waiters with
        | some ws =>
          simp only [AnalysisCache.machineStep, hc, hw, Option.bind_some] at h
          refine ih _ _ h ?_
          refine ⟨by simpa [hc] using hA, by simpa using hB, by simp, by simpa using hD, ?_⟩
          intro h0
          simp at h0
          rcases (hE h0).2.1.symm.trans hw with h'
          cases h'
        | none =>
          have h0 : s.builds = 0 := hC hc hw
          simp only [AnalysisCache.machineStep, hc, hw, Option.bind_some] at h
          refine ih _ _ h ?_
          refine ⟨by simpa [hc] using hA, by simpa using hB, by simp, by simp [h0], by simp⟩
    | complete =>
      cases hw : s.waiters with
      | none =>
        simp [AnalysisCache.machineStep, hw] at h
      | some ws =>
        simp only [AnalysisCache.machineStep, hw, Option.bind_some] at h
        refine ih _ _ h ?_
        have h1 : s.builds ≠ 0 := by
          intro h0
          rcases (hE h0).2.1.symm.trans hw with h'
          cases h'
        refine ⟨by simp, ?_, by simp, by simpa using hD, by simp [h1]⟩
        intro p hp
        rcases List.mem_append.mp hp with hp | hp
        · exact hB p hp
        · rcases List.mem_map.mp hp with ⟨c, _, hc⟩
          rw [← hc]

theorem AnalysisCache.machineRun_count {α : Type} (result : α) :
    ∀ (es : List AnalysisCache.MachineEvent) (s s' : AnalysisCache.MachineState α),
      AnalysisCache.machineRun result s es = some s' →
      s'.responses.length + AnalysisCache.waiterCount s' =
        s.responses.length + AnalysisCache.waiterCount s + AnalysisCache.arrivalsCount es := by
  intro es
  induction es with
  | nil =>
    intro s s' h
    simp [AnalysisCache.machineRun] at h
    subst h
    simp [AnalysisCache.arrivalsCount]
  | cons e es ih =>
    intro s s' h
    simp only [AnalysisCache.machineRun] at h
    cases e with
    | arrive c =>
      have harr : AnalysisCache.arrivalsCount (AnalysisCache.MachineEvent.arrive c :: es) =
          AnalysisCache.arrivalsCount es + 1 := by
        simp [AnalysisCache.arrivalsCount]
      cases hc : s.cached with
      | some r =>
        simp only [AnalysisCache.machineStep, hc, Option.bind_some] at h
        have := ih _ _ h
        simp [AnalysisCache.waiterCount] at this
        simp [AnalysisCache.waiterCount, harr]
        omega
      | none =>
        cases hw : s.waiters with
        | some ws =>
          simp only [AnalysisCache.machineStep, hc, hw, Option.bind_some] at h
          have := ih _ _ h
          simp [AnalysisCache.waiterCount] at this
          simp [AnalysisCache.waiterCount, hw, harr]
          omega
        | none =>
          simp only [AnalysisCache.machineStep, hc, hw, Option.bind_some] at h
          have := ih _ _ h
          simp [AnalysisCache.waiterCount] at this
          simp [AnalysisCache.waiterCount, hw, harr]
          omega
    | complete =>
      have harr : AnalysisCache.arrivalsCount (AnalysisCache.MachineEvent.complete :: es) =
          AnalysisCache.arrivalsCount es := by
        simp [AnalysisCache.arrivalsCount]
      cases hw : s.waiters with
      | none =>
        simp [AnalysisCache.machineStep, hw] at h
      | some ws =>
        simp only [AnalysisCache.machineStep, hw, Option.bind_some] at h
        have := ih _ _ h
        simp [AnalysisCache.waiterCount] at this
        simp [AnalysisCache.waiterCount, hw, harr]
        omega

/-- C8: for an uncached key, any interleaving of N arriving callers with the
build completions that ends with no caller still waiting starts exactly one
build, and every one of the N callers receives the same result, namely the
analyzers result; no error response exists in the model, so no caller can
observe a concurrent-build error. -/
theorem AnalysisCache.concurrent_gets_single_build {α : Type} (result : α)
    (es : List AnalysisCache.MachineEvent) (s' : AnalysisCache.MachineState α)
    (hrun : AnalysisCache.machineRun result AnalysisCache.machineInit es = some s')
    (hquiet : s'.waiters = none)
    (hn : 1 ≤ AnalysisCache.arrivalsCount es) :
    s'.builds = 1 ∧ s'.responses.length = AnalysisCache.arrivalsCount es ∧
      ∀ p ∈ s'.responses, p.2 = result := by
  have hinv := AnalysisCache.machineRun_invariant result es AnalysisCache.machineInit s' hrun
    (by refine ⟨?_, ?_, ?_, ?_, ?_⟩ <;> simp [AnalysisCache.machineInit])
  have hcount := AnalysisCache.machineRun_count result es AnalysisCache.machineInit s' hrun
  have hlen : s'.responses.length = AnalysisCache.arrivalsCount es := by
    simpa [AnalysisCache.machineInit, AnalysisCache.waiterCount, hquiet] using hcount
  refine ⟨?_, hlen, hinv.2.1⟩
  have hD := hinv.2.2.2.1
  rcases Nat.eq_zero_or_pos s'.builds with h0 | h1
  · have hresp := (hinv.2.2.2.2 h0).2.2
    rw [hresp] at hlen
    simp at hlen
    omega
  · omega

theorem AnalysisCache.concurrent_gets_single_build_witness :
    (AnalysisCache.machineRun (α := ℕ) 42 AnalysisCache.machineInit
        [AnalysisCache.MachineEvent.arrive 0, AnalysisCache.MachineEvent.arrive 1,
          AnalysisCache.MachineEvent.complete] =
      some { cached := some 42, waiters := none,
             responses := [(0, 42), (1, 42)], builds := 1 }) ∧
    (({ cached := some 42, waiters := none, responses := [(0, 42), (1, 42)],
        builds := 1 } : AnalysisCache.MachineState ℕ).waiters = none) ∧
    (1 ≤ AnalysisCache.arrivalsCount
        [AnalysisCache.MachineEvent.arrive 0, AnalysisCache.MachineEvent.arrive 1,
          AnalysisCache.MachineEvent.complete]) ∧
    (({ cached := some 42, waiters := none, responses := [(0, 42), (1, 42)],
        builds := 1 } : AnalysisCache.MachineState ℕ).builds = 1 ∧
      ({ cached := some 42, waiters := none, responses := [(0, 42), (1, 42)],
         builds := 1 } : AnalysisCache.MachineState ℕ).responses.length =
        AnalysisCache.arrivalsCount
          [AnalysisCache.MachineEvent.arrive 0, AnalysisCache.MachineEvent.arrive 1,
            AnalysisCache.MachineEvent.complete] ∧
      ∀ p ∈ ({ cached := some 42, waiters := none, responses := [(0, 42), (1, 42)],
               builds := 1 } : AnalysisCache.MachineState ℕ).responses, p.2 = 42) :=
  ⟨by decide, by decide, by decide,
    AnalysisCache.concurrent_gets_single_build 42 _ _ (by decide) (by decide) (by decide)⟩

theorem taxClassifier_perRank_keys (b : List (String × List (String × BaselineStat)))
    (ids : List String) (o : Option (List TaxRow)) :
    ((StudyAnalyzer.taxClassifier b ids o).perRank).map Prod.fst = taxRanks := by
  cases o <;>
    simp only [StudyAnalyzer.taxClassifier, List.map_map] <;>
    exact (List.map_congr_left fun a _ => rfl).trans (List.map_id _)

/-- C4: every study analysis result is keyed as the specification describes:
the physical section by variable, the omics top-10 and outlier sections by
omics type, and the taxonomic top-10 and outlier sections nested per
classifier and then per rank. -/
theorem StudyAnalyzer.result_shape (sid : String) (tables : Tables) (baseline : Baseline) :
    (StudyAnalyzer.compute sid tables baseline).physical.map Prod.fst =
        physVars tables.samples ∧
      (StudyAnalyzer.compute sid tables baseline).omics.top10.map Prod.fst = omicsTypes ∧
      (StudyAnalyzer.compute sid tables baseline).omics.outliers.map Prod.fst = omicsTypes ∧
      (StudyAnalyzer.compute sid tables baseline).taxonomic.top10.map
          (fun p => (p.1, p.2.map Prod.fst)) =
        classifiers.map (fun c => (c, taxRanks)) ∧
      (StudyAnalyzer.compute sid tables baseline).taxonomic.outliers.map
          (fun p => (p.1, p.2.map Prod.fst)) =
        classifiers.map (fun c => (c, taxRanks)) := by
  refine ⟨?_, ?_, ?_, ?_, ?_⟩
  · simp only [StudyAnalyzer.compute, List.map_map]
    exact (List.map_congr_left fun a _ => rfl).trans (List.map_id _)
  · simp only [StudyAnalyzer.compute, List.map_map]
    exact (List.map_congr_left fun a _ => rfl).trans (List.map_id _)
  · simp only [StudyAnalyzer.compute, List.map_map]
    exact (List.map_congr_left fun a _ => rfl).trans (List.map_id _)
  · simp only [StudyAnalyzer.compute, List.map_map]
    refine List.map_congr_left ?_
    intro c _
    have hk := taxClassifier_perRank_keys ((alookup baseline.taxonomic c).getD [])
      (StudyAnalyzer.studySampleIds tables sid) (alookup tables.taxonomic c)
    simp only [Prod.mk.injEq, Function.comp]
    refine ⟨trivial, ?_⟩
    rw [← hk, List.map_map]
    rfl
  · simp only [StudyAnalyzer.compute, List.map_map]
    refine List.map_congr_left ?_
    intro c _
    have hk := taxClassifier_perRank_keys ((alookup baseline.taxonomic c).getD [])
      (StudyAnalyzer.studySampleIds tables sid) (alookup tables.taxonomic c)
    simp only [Prod.mk.injEq, Function.comp]
    refine ⟨trivial, ?_⟩
    rw [← hk, List.map_map]
    rfl

/-- C1: in a study analysis computed against the baseline built from the same
tables, every physical variable with at least two valid (numerically
parseable) study values is reported with status ok and populated (finite
rational) p-value and effect size, and every variable with fewer than two
valid values is reported with status no_data and no populated comparison
field. -/
theorem StudyAnalyzer.physical_variable_status (tables : Tables) (sid v : String) :
    (alookup (StudyAnalyzer.compute sid tables (CompendiumBaseline.build tables)).physical
        v).elim True
      (fun e =>
        if 2 ≤ (StudyAnalyzer.validStudyValues tables sid v).length then
          e.status = "ok" ∧ e.p_value.isSome ∧ e.effect_size.isSome
        else
          e.status = "no_data" ∧ e.p_value = none ∧ e.effect_size = none ∧
            e.compendium_mean = none ∧ e.compendium_std = none) := by
  have hb : alookup
      (StudyAnalyzer.compute sid tables (CompendiumBaseline.build tables)).physical v =
      if v ∈ physVars tables.samples then
        some (StudyAnalyzer.physicalEntry (CompendiumBaseline.build tables)
          (StudyAnalyzer.validStudyValues tables sid v) v)
      else none := by
    simp only [StudyAnalyzer.compute]
    exact alookup_map_pair _ _ v
  rw [hb]
  by_cases hv : v ∈ physVars tables.samples
  · rw [if_pos hv]
    simp only [Option.elim]
    by_cases hn : 2 ≤ (StudyAnalyzer.validStudyValues tables sid v).length
    · rw [if_pos hn]
      have hbase : alookup (CompendiumBaseline.build tables).physical v =
          some { mean := meanOf (sampleValues tables.samples v),
                 std := varOf (sampleValues tables.samples v),
                 count := (sampleValues tables.samples v).length } := by
        simp only [CompendiumBaseline.build]
        rw [alookup_map_pair, if_pos hv]
      have hsub : List.Sublist (StudyAnalyzer.validStudyValues tables sid v)
          (sampleValues tables.samples v) := by
        unfold StudyAnalyzer.validStudyValues sampleValues StudyAnalyzer.studySamples
        exact (List.filter_sublist _).filterMap _
      have hcount : 2 ≤ (sampleValues tables.samples v).length :=
        le_trans hn hsub.length_le
      unfold StudyAnalyzer.physicalEntry
      rw [if_pos hn, hbase]
      simp [hcount]
    · rw [if_neg hn]
      unfold StudyAnalyzer.physicalEntry
      rw [if_neg hn]
      simp
  · rw [if_neg hv]
    simp [Option.elim]

theorem top10Items_length_le (pairs : List (String × ℚ)) : (top10Items pairs).length ≤ 10 := by
  unfold top10Items
  rw [List.length_take]
  exact min_le_left _ _

theorem top10Items_sorted (pairs : List (String × ℚ)) :
    List.Pairwise descMean (top10Items pairs) := by
  have hs : List.Sorted itemOrder (List.insertionSort itemOrder (aggregateItems pairs)) :=
    List.sorted_insertionSort _ _
  unfold List.Sorted at hs
  have hp : List.Pairwise descMean (List.insertionSort itemOrder (aggregateItems pairs)) := by
    refine hs.imp ?_
    intro a b hab
    rcases hab with h | ⟨h, _⟩
    · exact le_of_lt h
    · exact le_of_eq h
  exact hp.sublist (List.take_sublist _ _)

/-- C2: in every study analysis, every omics top-10 list and every
(classifier, rank) taxonomic top-10 list has at most ten entries and is
ordered by non-increasing study mean abundance, and the top-10 computation is
deterministic: the same keyed abundances, in any order (in particular,
re-running on identical input, ties included), give the identical list. -/
theorem StudyAnalyzer.top10_bounded_sorted_deterministic
    (sid ty c r : String) (tables : Tables) (baseline : Baseline) :
    ((alookup (StudyAnalyzer.compute sid tables baseline).omics.top10 ty).elim True fun l =>
        l.length ≤ 10 ∧ List.Pairwise descMean l) ∧
      ((alookup (StudyAnalyzer.compute sid tables baseline).taxonomic.top10 c).elim True
        fun rm => (alookup rm r).elim True fun l =>
          l.length ≤ 10 ∧ List.Pairwise descMean l) ∧
      (∀ p₁ p₂ : List (String × ℚ), List.Perm p₁ p₂ → top10Items p₁ = top10Items p₂) := by
  refine ⟨?_, ?_, fun p₁ p₂ h => top10Items_perm_eq h⟩
  · have h1 : (StudyAnalyzer.compute sid tables baseline).omics.top10 =
        omicsTypes.map fun ty' =>
          (ty', (StudyAnalyzer.omicsCategory ((alookup baseline.omics ty').getD [])
            (StudyAnalyzer.studySampleIds tables sid) (alookup tables.omics ty')).top10) := by
      simp only [StudyAnalyzer.compute, List.map_map]
      exact List.map_congr_left fun a _ => rfl
    rw [h1, alookup_map_pair]
    by_cases hty : ty ∈ omicsTypes
    · rw [if_pos hty]
      simp only [Option.elim]
      cases ho : alookup tables.omics ty with
      | none => simp [StudyAnalyzer.omicsCategory, emptyCategory]
      | some rows =>
        simp only [StudyAnalyzer.omicsCategory]
        exact ⟨top10Items_length_le _, top10Items_sorted _⟩
    · rw [if_neg hty]
      simp [Option.elim]
  · have h2 : (StudyAnalyzer.compute sid tables baseline).taxonomic.top10 =
        classifiers.map fun c' =>
          (c', ((StudyAnalyzer.taxClassifier ((alookup baseline.taxonomic c').getD [])
            (StudyAnalyzer.studySampleIds tables sid)
            (alookup tables.taxonomic c')).perRank.map fun q => (q.1, q.2.top10))) := by
      simp only [StudyAnalyzer.compute, List.map_map]
      exact List.map_congr_left fun a _ => rfl
    rw [h2, alookup_map_pair]
    by_cases hc : c ∈ classifiers
    · rw [if_pos hc]
      simp only [Option.elim]
      cases ho : alookup tables.taxonomic c with
      | none =>
        have h3 : ((StudyAnalyzer.taxClassifier
            ((alookup baseline.taxonomic c).getD [])
            (StudyAnalyzer.studySampleIds tables sid) none).perRank.map
              fun q => (q.1, q.2.top10)) =
            taxRanks.map fun r' => (r', ([] : List ItemAgg)) := by
          simp only [StudyAnalyzer.taxClassifier, List.map_map]
          exact List.map_congr_left fun a _ => rfl
        rw [h3, alookup_map_pair]
        by_cases hr : r ∈ taxRanks
        · rw [if_pos hr]
          simp [Option.elim]
        · rw [if_neg hr]
          simp [Option.elim]
      | some rows =>
        have h3 : ((StudyAnalyzer.taxClassifier
            ((alookup baseline.taxonomic c).getD [])
            (StudyAnalyzer.studySampleIds tables sid) (some rows)).perRank.map
              fun q => (q.1, q.2.top10)) =
            taxRanks.map fun r' =>
              (r', top10Items (taxPairsAtRank (StudyAnalyzer.taxStudyRows
                (StudyAnalyzer.studySampleIds tables sid) rows) r')) := by
          simp only [StudyAnalyzer.taxClassifier, List.map_map]
          exact List.map_congr_left fun a _ => rfl
        rw [h3, alookup_map_pair]
        by_cases hr : r ∈ taxRanks
        · rw [if_pos hr]
          simp only [Option.elim]
          exact ⟨top10Items_length_le _, top10Items_sorted _⟩
        · rw [if_neg hr]
          simp [Option.elim]
    · rw [if_neg hc]
      simp [Option.elim]

theorem StudyAnalyzer.top10_bounded_sorted_deterministic_witness :
    List.Perm [(("a" : String), (1 : ℚ)), ("b", 2)] [("b", 2), ("a", 1)] ∧
      top10Items [(("a" : String), (1 : ℚ)), ("b", 2)] =
        top10Items [("b", 2), ("a", 1)] := by
  have hp : List.Perm [(("a" : String), (1 : ℚ)), ("b", 2)] [("b", 2), ("a", 1)] :=
    List.Perm.swap _ _ []
  exact ⟨hp, (StudyAnalyzer.top10_bounded_sorted_deterministic "st1" "metabolomics"
    "kraken" "phylum" demoTables (CompendiumBaseline.build demoTables)).2.2 _ _ hp⟩

theorem compute_omics_top10 (sid : String) (t : Tables) (baseline : Baseline) :
    (StudyAnalyzer.compute sid t baseline).omics.top10 =
      omicsTypes.map fun ty0 =>
        (ty0, (StudyAnalyzer.omicsCategory ((alookup baseline.omics ty0).getD [])
          (StudyAnalyzer.studySampleIds t sid) (alookup t.omics ty0)).top10) := by
  simp only [StudyAnalyzer.compute, List.map_map]
  exact List.map_congr_left fun a _ => rfl

theorem compute_omics_outliers (sid : String) (t : Tables) (baseline : Baseline) :
    (StudyAnalyzer.compute sid t baseline).omics.outliers =
      omicsTypes.map fun ty0 =>
        (ty0, (StudyAnalyzer.omicsCategory ((alookup baseline.omics ty0).getD [])
          (StudyAnalyzer.studySampleIds t sid) (alookup t.omics ty0)).outliers) := by
  simp only [StudyAnalyzer.compute, List.map_map]
  exact List.map_congr_left fun a _ => rfl

theorem compute_omics_status (sid : String) (t : Tables) (baseline : Baseline) :
    (StudyAnalyzer.compute sid t baseline).omics.status =
      omicsTypes.map fun ty0 =>
        (ty0, (StudyAnalyzer.omicsCategory ((alookup baseline.omics ty0).getD [])
          (StudyAnalyzer.studySampleIds t sid) (alookup t.omics ty0)).status) := by
  simp only [StudyAnalyzer.compute, List.map_map]
  exact List.map_congr_left fun a _ => rfl

theorem compute_tax_top10 (sid : String) (t : Tables) (baseline : Baseline) :
    (StudyAnalyzer.compute sid t baseline).taxonomic.top10 =
      classifiers.map fun c0 =>
        (c0, ((StudyAnalyzer.taxClassifier ((alookup baseline.taxonomic c0).getD [])
          (StudyAnalyzer.studySampleIds t sid)
          (alookup t.taxonomic c0)).perRank.map fun q => (q.1, q.2.top10))) := by
  simp only [StudyAnalyzer.compute, List.map_map]
  exact List.map_congr_left fun a _ => rfl

theorem compute_tax_outliers (sid : String) (t : Tables) (baseline : Baseline) :
    (StudyAnalyzer.compute sid t baseline).taxonomic.outliers =
      classifiers.map fun c0 =>
        (c0, ((StudyAnalyzer.taxClassifier ((alookup baseline.taxonomic c0).getD [])
          (StudyAnalyzer.studySampleIds t sid)
          (alookup t.taxonomic c0)).perRank.map fun q => (q.1, q.2.outliers))) := by
  simp only [StudyAnalyzer.compute, List.map_map]
  exact List.map_congr_left fun a _ => rfl

theorem compute_tax_status (sid : String) (t : Tables) (baseline : Baseline) :
    (StudyAnalyzer.compute sid t baseline).taxonomic.status =
      classifiers.map fun c0 =>
        (c0, (StudyAnalyzer.taxClassifier ((alookup baseline.taxonomic c0).getD [])
          (StudyAnalyzer.studySampleIds t sid) (alookup t.taxonomic c0)).status) := by
  simp only [StudyAnalyzer.compute, List.map_map]
  exact List.map_congr_left fun a _ => rfl

theorem compute_physical_map (sid : String) (t : Tables) (baseline : Baseline) :
    (StudyAnalyzer.compute sid t baseline).physical =
      (physVars t.samples).map fun v =>
        (v, StudyAnalyzer.physicalEntry baseline
          (StudyAnalyzer.validStudyValues t sid v) v) := rfl

theorem build_physical_map (t : Tables) :
    (CompendiumBaseline.build t).physical =
      (physVars t.samples).map fun v =>
        (v, { mean := meanOf (sampleValues t.samples v),
              std := varOf (sampleValues t.samples v),
              count := (sampleValues t.samples v).length }) := rfl

theorem build_omics_map (t : Tables) :
    (CompendiumBaseline.build t).omics =
      omicsTypes.map fun ty =>
        (ty, baselineItems (pairsOfRows ((alookup t.omics ty).getD []))) := rfl

theorem physicalEntry_congr {b₁ b₂ : Baseline} (h : b₁.physical = b₂.physical)
    (xs : List ℚ) (v : String) :
    StudyAnalyzer.physicalEntry b₁ xs v = StudyAnalyzer.physicalEntry b₂ xs v := by
  unfold StudyAnalyzer.physicalEntry
  rw [h]

theorem physical_section_eq {t₁ t₂ : Tables} (sid : String)
    (hsamp : t₁.samples = t₂.samples) :
    (analysisOf sid t₁).physical = (analysisOf sid t₂).physical := by
  have hvals : ∀ v, StudyAnalyzer.validStudyValues t₁ sid v =
      StudyAnalyzer.validStudyValues t₂ sid v := by
    intro v
    unfold StudyAnalyzer.validStudyValues StudyAnalyzer.studySamples
    rw [hsamp]
  have hbp : (CompendiumBaseline.build t₁).physical =
      (CompendiumBaseline.build t₂).physical := by
    rw [build_physical_map, build_physical_map, hsamp]
  rw [show (analysisOf sid t₁).physical = _ from
      compute_physical_map sid t₁ (CompendiumBaseline.build t₁),
    show (analysisOf sid t₂).physical = _ from
      compute_physical_map sid t₂ (CompendiumBaseline.build t₂),
    hsamp]
  refine List.map_congr_left ?_
  intro v _
  rw [hvals v, physicalEntry_congr hbp]

theorem studySampleIds_congr {t₁ t₂ : Tables} (sid : String)
    (hsamp : t₁.samples = t₂.samples) :
    StudyAnalyzer.studySampleIds t₁ sid = StudyAnalyzer.studySampleIds t₂ sid := by
  unfold StudyAnalyzer.studySampleIds StudyAnalyzer.studySamples
  rw [hsamp]

theorem omics_section_eq {t₁ t₂ : Tables} (sid : String)
    (hsamp : t₁.samples = t₂.samples) (homics : t₁.omics = t₂.omics) :
    (analysisOf sid t₁).omics = (analysisOf sid t₂).omics := by
  have hids := studySampleIds_congr sid hsamp
  have hbo : (CompendiumBaseline.build t₁).omics = (CompendiumBaseline.build t₂).omics := by
    rw [build_omics_map, build_omics_map]
    simp only [homics]
  have h1 : (analysisOf sid t₁).omics.top10 = (analysisOf sid t₂).omics.top10 := by
    rw [show (analysisOf sid t₁).omics.top10 = _ from
        compute_omics_top10 sid t₁ (CompendiumBaseline.build t₁),
      show (analysisOf sid t₂).omics.top10 = _ from
        compute_omics_top10 sid t₂ (CompendiumBaseline.build t₂)]
    simp only [hbo, hids, homics]
  have h2 : (analysisOf sid t₁).omics.outliers = (analysisOf sid t₂).omics.outliers := by
    rw [show (analysisOf sid t₁).omics.outliers = _ from
        compute_omics_outliers sid t₁ (CompendiumBaseline.build t₁),
      show (analysisOf sid t₂).omics.outliers = _ from
        compute_omics_outliers sid t₂ (CompendiumBaseline.build t₂)]
    simp only [hbo, hids, homics]
  have h3 : (analysisOf sid t₁).omics.status = (analysisOf sid t₂).omics.status := by
    rw [show (analysisOf sid t₁).omics.status = _ from
        compute_omics_status sid t₁ (CompendiumBaseline.build t₁),
      show (analysisOf sid t₂).omics.status = _ from
        compute_omics_status sid t₂ (CompendiumBaseline.build t₂)]
    simp only [hbo, hids, homics]
  have e₁ : (analysisOf sid t₁).omics =
      { top10 := (analysisOf sid t₁).omics.top10,
        outliers := (analysisOf sid t₁).omics.outliers,
        status := (analysisOf sid t₁).omics.status } := rfl
  have e₂ : (analysisOf sid t₂).omics =
      { top10 := (analysisOf sid t₂).omics.top10,
        outliers := (analysisOf sid t₂).omics.outliers,
        status := (analysisOf sid t₂).omics.status } := rfl
  rw [e₁, e₂, h1, h2, h3]

theorem build_taxonomic_map (t : Tables) :
    (CompendiumBaseline.build t).taxonomic =
      classifiers.map fun c0 =>
        (c0, taxRanks.map fun r =>
          (r, baselineItems (taxPairsAtRank ((alookup t.taxonomic c0).getD []) r))) := rfl

theorem tax_section_eq {t₁ t₂ : Tables} (sid : String)
    (hsamp : t₁.samples = t₂.samples) (htax : t₁.taxonomic = t₂.taxonomic) :
    (analysisOf sid t₁).taxonomic = (analysisOf sid t₂).taxonomic := by
  have hids := studySampleIds_congr sid hsamp
  have hbt : (CompendiumBaseline.build t₁).taxonomic =
      (CompendiumBaseline.build t₂).taxonomic := by
    rw [build_taxonomic_map, build_taxonomic_map]
    simp only [htax]
  have h1 : (analysisOf sid t₁).taxonomic.top10 = (analysisOf sid t₂).taxonomic.top10 := by
    rw [show (analysisOf sid t₁).taxonomic.top10 = _ from
        compute_tax_top10 sid t₁ (CompendiumBaseline.build t₁),
      show (analysisOf sid t₂).taxonomic.top10 = _ from
        compute_tax_top10 sid t₂ (CompendiumBaseline.build t₂)]
    simp only [hbt, hids, htax]
  have h2 : (analysisOf sid t₁).taxonomic.outliers = (analysisOf sid t₂).taxonomic.outliers := by
    rw [show (analysisOf sid t₁).taxonomic.outliers = _ from
        compute_tax_outliers sid t₁ (CompendiumBaseline.build t₁),
      show (analysisOf sid t₂).taxonomic.outliers = _ from
        compute_tax_outliers sid t₂ (CompendiumBaseline.build t₂)]
    simp only [hbt, hids, htax]
  have h3 : (analysisOf sid t₁).taxonomic.status = (analysisOf sid t₂).taxonomic.status := by
    rw [show (analysisOf sid t₁).taxonomic.status = _ from
        compute_tax_status sid t₁ (CompendiumBaseline.build t₁),
      show (analysisOf sid t₂).taxonomic.status = _ from
        compute_tax_status sid t₂ (CompendiumBaseline.build t₂)]
    simp only [hbt, hids, htax]
  have e₁ : (analysisOf sid t₁).taxonomic =
      { top10 := (analysisOf sid t₁).taxonomic.top10,
        outliers := (analysisOf sid t₁).taxonomic.outliers,
        status := (analysisOf sid t₁).taxonomic.status } := rfl
  have e₂ : (analysisOf sid t₂).taxonomic =
      { top10 := (analysisOf sid t₂).taxonomic.top10,
        outliers := (analysisOf sid t₂).taxonomic.outliers,
        status := (analysisOf sid t₂).taxonomic.status } := rfl
  rw [e₁, e₂, h1, h2, h3]

/-- C3: the analysis never fails as a whole: a missing omics table degrades
only that category to empty top-10 and outlier lists with an explanatory
status, while the physical and taxonomic sections, and every other omics
category, are exactly what they would be with that table present; a missing
classifier table likewise degrades only that classifier to empty per-rank
lists with an explanatory status, while the physical and omics sections and
every other classifier are exactly what they would be with that table
present.  The computation is a total function, so no exception can be
raised. -/
theorem StudyAnalyzer.missing_table_degrades_only_category
    (tables : Tables) (sid ty c : String) (rows : List AbundanceRow)
    (trows : List TaxRow) :
    (alookup tables.omics ty = none → ty ∈ omicsTypes →
      alookup (analysisOf sid tables).omics.top10 ty = some [] ∧
        alookup (analysisOf sid tables).omics.outliers ty = some [] ∧
        alookup (analysisOf sid tables).omics.status ty = some missingTableStatus ∧
        (analysisOf sid (withOmicsTable tables ty rows)).physical =
          (analysisOf sid tables).physical ∧
        (analysisOf sid (withOmicsTable tables ty rows)).taxonomic =
          (analysisOf sid tables).taxonomic ∧
        ∀ ty', ¬ ty' = ty →
          alookup (analysisOf sid (withOmicsTable tables ty rows)).omics.top10 ty' =
              alookup (analysisOf sid tables).omics.top10 ty' ∧
            alookup (analysisOf sid (withOmicsTable tables ty rows)).omics.outliers ty' =
              alookup (analysisOf sid tables).omics.outliers ty' ∧
            alookup (analysisOf sid (withOmicsTable tables ty rows)).omics.status ty' =
              alookup (analysisOf sid tables).omics.status ty') ∧
      (alookup tables.taxonomic c = none → c ∈ classifiers →
        alookup (analysisOf sid tables).taxonomic.top10 c =
            some (taxRanks.map fun r => (r, ([] : List ItemAgg))) ∧
          alookup (analysisOf sid tables).taxonomic.outliers c =
            some (taxRanks.map fun r => (r, ([] : List OutlierItem))) ∧
          alookup (analysisOf sid tables).taxonomic.status c = some missingTableStatus ∧
          (analysisOf sid (withTaxTable tables c trows)).physical =
            (analysisOf sid tables).physical ∧
          (analysisOf sid (withTaxTable tables c trows)).omics =
            (analysisOf sid tables).omics ∧
          ∀ c', ¬ c' = c →
            alookup (analysisOf sid (withTaxTable tables c trows)).taxonomic.top10 c' =
                alookup (analysisOf sid tables).taxonomic.top10 c' ∧
              alookup (analysisOf sid (withTaxTable tables c trows)).taxonomic.outliers c' =
                alookup (analysisOf sid tables).taxonomic.outliers c' ∧
              alookup (analysisOf sid (withTaxTable tables c trows)).taxonomic.status c' =
                alookup (analysisOf sid tables).taxonomic.status c') := by
  constructor
  · intro h hty
    refine ⟨?_, ?_, ?_, physical_section_eq sid rfl, tax_section_eq sid rfl rfl, ?_⟩
    · rw [show (analysisOf sid tables).omics.top10 = _ from
        compute_omics_top10 sid tables (CompendiumBaseline.build tables),
        alookup_map_pair, if_pos hty, h]
      simp [StudyAnalyzer.omicsCategory, emptyCategory]
    · rw [show (analysisOf sid tables).omics.outliers = _ from
        compute_omics_outliers sid tables (CompendiumBaseline.build tables),
        alookup_map_pair, if_pos hty, h]
      simp [StudyAnalyzer.omicsCategory, emptyCategory]
    · rw [show (analysisOf sid tables).omics.status = _ from
        compute_omics_status sid tables (CompendiumBaseline.build tables),
        alookup_map_pair, if_pos hty, h]
      simp [StudyAnalyzer.omicsCategory, emptyCategory]
    · intro ty' hne
      have hconsO : alookup (withOmicsTable tables ty rows).omics ty' =
          alookup tables.omics ty' := by
        show alookup ((ty, rows) :: tables.omics) ty' = alookup tables.omics ty'
        exact alookup_cons_ne _ _ _ _ fun h' => hne h'.symm
      have hbase : alookup (CompendiumBaseline.build (withOmicsTable tables ty rows)).omics ty' =
          alookup (CompendiumBaseline.build tables).omics ty' := by
        simp only [CompendiumBaseline.build]
        rw [alookup_map_pair, alookup_map_pair, hconsO]
      have hcat : StudyAnalyzer.omicsCategory
          ((alookup (CompendiumBaseline.build (withOmicsTable tables ty rows)).omics ty').getD [])
          (StudyAnalyzer.studySampleIds (withOmicsTable tables ty rows) sid)
          (alookup (withOmicsTable tables ty rows).omics ty') =
          StudyAnalyzer.omicsCategory
            ((alookup (CompendiumBaseline.build tables).omics ty').getD [])
            (StudyAnalyzer.studySampleIds tables sid) (alookup tables.omics ty') := by
        rw [hconsO, hbase]
        rfl
      refine ⟨?_, ?_, ?_⟩
      · rw [show (analysisOf sid (withOmicsTable tables ty rows)).omics.top10 = _ from
            compute_omics_top10 sid _ (CompendiumBaseline.build (withOmicsTable tables ty rows)),
          show (analysisOf sid tables).omics.top10 = _ from
            compute_omics_top10 sid tables (CompendiumBaseline.build tables),
          alookup_map_pair, alookup_map_pair, hcat]
      · rw [show (analysisOf sid (withOmicsTable tables ty rows)).omics.outliers = _ from
            compute_omics_outliers sid _ (CompendiumBaseline.build (withOmicsTable tables ty rows)),
          show (analysisOf sid tables).omics.outliers = _ from
            compute_omics_outliers sid tables (CompendiumBaseline.build tables),
          alookup_map_pair, alookup_map_pair, hcat]
      · rw [show (analysisOf sid (withOmicsTable tables ty rows)).omics.status = _ from
            compute_omics_status sid _ (CompendiumBaseline.build (withOmicsTable tables ty rows)),
          show (analysisOf sid tables).omics.status = _ from
            compute_omics_status sid tables (CompendiumBaseline.build tables),
          alookup_map_pair, alookup_map_pair, hcat]
  · intro h hc
    refine ⟨?_, ?_, ?_, physical_section_eq sid rfl, omics_section_eq sid rfl rfl, ?_⟩
    · rw [show (analysisOf sid tables).taxonomic.top10 = _ from
        compute_tax_top10 sid tables (CompendiumBaseline.build tables),
        alookup_map_pair, if_pos hc, h]
      simp only [StudyAnalyzer.taxClassifier, List.map_map, Option.some.injEq]
      exact List.map_congr_left fun a _ => rfl
    · rw [show (analysisOf sid tables).taxonomic.outliers = _ from
        compute_tax_outliers sid tables (CompendiumBaseline.build tables),
        alookup_map_pair, if_pos hc, h]
      simp only [StudyAnalyzer.taxClassifier, List.map_map, Option.some.injEq]
      exact List.map_congr_left fun a _ => rfl
    · rw [show (analysisOf sid tables).taxonomic.status = _ from
        compute_tax_status sid tables (CompendiumBaseline.build tables),
        alookup_map_pair, if_pos hc, h]
      simp [StudyAnalyzer.taxClassifier]
    · intro c' hne
      have hconsT : alookup (withTaxTable tables c trows).taxonomic c' =
          alookup tables.taxonomic c' := by
        show alookup ((c, trows) :: tables.taxonomic) c' = alookup tables.taxonomic c'
        exact alookup_cons_ne _ _ _ _ fun h' => hne h'.symm
      have hbaseT : alookup (CompendiumBaseline.build (withTaxTable tables c trows)).taxonomic c' =
          alookup (CompendiumBaseline.build tables).taxonomic c' := by
        rw [build_taxonomic_map, build_taxonomic_map,
          alookup_map_pair, alookup_map_pair, hconsT]
      have hcatT : StudyAnalyzer.taxClassifier
          ((alookup (CompendiumBaseline.build (withTaxTable tables c trows)).taxonomic c').getD [])
          (StudyAnalyzer.studySampleIds (withTaxTable tables c trows) sid)
          (alookup (withTaxTable tables c trows).taxonomic c') =
          StudyAnalyzer.taxClassifier
            ((alookup (CompendiumBaseline.build tables).taxonomic c').getD [])
            (StudyAnalyzer.studySampleIds tables sid) (alookup tables.taxonomic c') := by
        rw [hconsT, hbaseT]
        rfl
      refine ⟨?_, ?_, ?_⟩
      · rw [show (analysisOf sid (withTaxTable tables c trows)).taxonomic.top10 = _ from
            compute_tax_top10 sid _ (CompendiumBaseline.build (withTaxTable tables c trows)),
          show (analysisOf sid tables).taxonomic.top10 = _ from
            compute_tax_top10 sid tables (CompendiumBaseline.build tables),
          alookup_map_pair, alookup_map_pair, hcatT]
      · rw [show (analysisOf sid (withTaxTable tables c trows)).taxonomic.outliers = _ from
            compute_tax_outliers sid _ (CompendiumBaseline.build (withTaxTable tables c trows)),
          show (analysisOf sid tables).taxonomic.outliers = _ from
            compute_tax_outliers sid tables (CompendiumBaseline.build tables),
          alookup_map_pair, alookup_map_pair, hcatT]
      · rw [show (analysisOf sid (withTaxTable tables c trows)).taxonomic.status = _ from
            compute_tax_status sid _ (CompendiumBaseline.build (withTaxTable tables c trows)),
          show (analysisOf sid tables).taxonomic.status = _ from
            compute_tax_status sid tables (CompendiumBaseline.build tables),
          alookup_map_pair, alookup_map_pair, hcatT]

theorem StudyAnalyzer.missing_table_degrades_only_category_witness :
    (alookup demoTables.omics "metabolomics" = none ∧ "metabolomics" ∈ omicsTypes) ∧
      (alookup demoTables.taxonomic "kraken" = none ∧ "kraken" ∈ classifiers) ∧
      alookup (analysisOf "st1" demoTables).omics.top10 "metabolomics" = some [] ∧
      alookup (analysisOf "st1" demoTables).taxonomic.top10 "kraken" =
        some (taxRanks.map fun r => (r, ([] : List ItemAgg))) := by
  have hmain := StudyAnalyzer.missing_table_degrades_only_category demoTables "st1"
    "metabolomics" "kraken" [] []
  refine ⟨⟨rfl, by decide⟩, ⟨rfl, by decide⟩, ?_, ?_⟩
  · exact (hmain.1 rfl (by decide)).1
  · exact (hmain.2 rfl (by decide)).1
